import Mathlib

/-!
Verification development for the `asciicam` program (`src/main.rs`).

The program renders webcam frames as ASCII art in a terminal.  We embed the
pure core of the source shallowly:

* `CharArr.get_char` — the luminance-byte to ramp-character map
  (`CharArr::get_char`, main.rs lines 109-112);
* `GrayImage` / `write_image_buffer` — the row-major luminance grid and the
  renderer (`write_image_buffer`, lines 115-139);
* `resizeNearest` — nearest-neighbor resampling (the external
  `fast_image_resize` dependency with `ResizeAlg::Nearest`), modelled from
  the spec as "each output sample takes the value of the nearest source
  sample under a linear coordinate mapping";
* `get_cam` — the decode/validate/resample stage (`CameraBuffer::get_cam`,
  lines 31-101), with the external mozjpeg decode represented by its
  outcome (`Option` of the raw grayscale scanline bytes);
* `loopMetadata`, `iterStep`, `runLoop`, `mainRun` — the capture loop of
  `main` (lines 141-218), with every external collaborator call represented
  by its per-iteration outcome and the raw-mode flag threaded explicitly.

Machine integers: all the Rust arithmetic involved (`u8 as usize`
widenings, `u32` dimensions) stays far below overflow in the modelled
expressions, so dimensions and luminance samples are plain `Nat`.
-/

/-- The ramp hard-coded in `write_image_buffer` (main.rs lines 126-128):
13 entries, the first three blank. -/
def charset13 : List Char :=
  [' ', ' ', ' ', '.', ':', '-', '=', '+', '*', '#', '%', '@', '?']

/-- Rust `struct CharArr` (main.rs lines 17-20): a ramp together with one
luminance byte.  `pixel` is the `u8` value, kept as a `Nat` in `[0,255]`. -/
structure CharArr where
  charset : List Char
  pixel : Nat

/-- The index computed by `CharArr::get_char` (main.rs line 110):
`(pixel as usize * (charset.len() - 1)) / 255`. -/
def CharArr.char_idx (c : CharArr) : Nat :=
  (c.pixel * (c.charset.length - 1)) / 255

/-- Function `CharArr::get_char` (main.rs lines 109-112), total form: the Rust code
indexes `self.charset[idx]`; we use `getD` with an arbitrary default, and
prove separately (`CharArr.get_char?`) that the index is always in range. -/
def CharArr.get_char (c : CharArr) : Char :=
  c.charset.getD c.char_idx ' '

/-- Function `CharArr::get_char` with the partiality of the Rust slice index made
explicit: `none` models the out-of-bounds panic path. -/
def CharArr.get_char? (c : CharArr) : Option Char :=
  c.charset[c.char_idx]?

/-- The `GrayImage` of the `image` crate as used by the program: a
row-major grid of luminance bytes with explicit dimensions. -/
structure GrayImage where
  width : Nat
  height : Nat
  data : List Nat

/-- Method `ImageBuffer::get_pixel(x, y)` for a grayscale image: row-major sample
at index `y * width + x`. -/
def GrayImage.get_pixel (img : GrayImage) (x y : Nat) : Nat :=
  img.data.getD (y * img.width + x) 0

/-- One line of `write_image_buffer`'s output for row `y` (main.rs lines
120-135): columns traversed right-to-left (`for x in (0..bw).rev()`), each
sample pushed through `CharArr::get_char` with the hard-coded ramp, then
`'\r'` and `'\n'` pushed. -/
def renderLine (img : GrayImage) (y : Nat) : List Char :=
  (List.range img.width).reverse.map
    (fun x => CharArr.get_char ⟨charset13, img.get_pixel x y⟩) ++ ['\r', '\n']

/-- The per-row decomposition of the rendered buffer: one line per grid
row, top to bottom (`for y in 0..bh`). -/
def renderLines (img : GrayImage) : List (List Char) :=
  (List.range img.height).map (renderLine img)

/-- Function `write_image_buffer` (main.rs lines 115-139): the full character buffer
written to the output sink. -/
def write_image_buffer (img : GrayImage) : List Char :=
  (renderLines img).flatten

/-- A row-major `h × w` grid built from a per-position sample function:
the flat buffer produced by the nested loops `for y in 0..h { for x in
0..w { ... } }`. -/
def flatGrid (h w : Nat) (f : Nat → Nat → Nat) : List Nat :=
  (List.range h).flatMap (fun y => (List.range w).map (f y))

/-- Modelled from the spec: nearest-neighbor resampling, the behavior of
the external `fast_image_resize` dependency with `ResizeAlg::Nearest`
invoked by `CameraBuffer::get_cam` (main.rs lines 76-87).  Per the spec,
"each output sample takes the value of the nearest source sample under a
linear coordinate mapping": output position `x` has center `x + 1/2`,
which maps to source coordinate `(x + 1/2) * srcW / dstW`, whose floor is
`(2x+1) * srcW / (2 * dstW)`, clamped into the source grid. -/
def resizeNearest (srcW srcH dstW dstH : Nat) (data : List Nat) : List Nat :=
  flatGrid dstH dstW (fun y x =>
    data.getD
      (min ((2 * y + 1) * srcH / (2 * dstH)) (srcH - 1) * srcW
        + min ((2 * x + 1) * srcW / (2 * dstW)) (srcW - 1)) 0)

/-- The error exits of `CameraBuffer::get_cam` (main.rs lines 31-101), in
source order:
* `decodeFailed` — `from_mem`/`grayscale`/`read_scanlines` failure
  (lines 32-41);
* `dimensionInvalid` — a `NonZeroU32::new` returning `None` on a zero
  width or height (lines 46-57, 62-74);
* `invalidBufferSize` — `fr::Image::from_vec_u8` rejecting a pixel buffer
  whose length does not match the declared source dimensions (lines 45-60);
* `fromRawFailed` — `image::ImageBuffer::from_raw` returning `None`
  (lines 89-98). -/
inductive CamError where
  | decodeFailed
  | dimensionInvalid
  | invalidBufferSize
  | fromRawFailed
deriving DecidableEq, Repr

/-- Rust `struct CameraBuffer` (main.rs lines 22-28).  The `stream_buf` field
holds MJPG bytes whose decode is performed by the external mozjpeg
library; we carry the decode *outcome* instead: `none` for a decode
failure, `some raw` for the grayscale scanline bytes (row-major, at the
camera's native resolution). -/
structure CameraBuffer where
  stream_buf : Option (List Nat)
  src_width : Nat
  src_height : Nat
  dst_width : Nat
  dst_height : Nat

/-- Function `CameraBuffer::get_cam` (main.rs lines 31-101): decode, wrap the raw
bytes as a `src_width × src_height` source image (checking the dimensions
are nonzero and the buffer length matches), check the target dimensions
are nonzero, resample with `ResizeAlg::Nearest`, and reassemble the result
as a `GrayImage` (`from_raw` checks the buffer holds at least
`dst_width * dst_height` samples). -/
def get_cam (buff : CameraBuffer) : Except CamError GrayImage :=
  match buff.stream_buf with
  | none => .error .decodeFailed
  | some raw =>
    if buff.src_width = 0 then .error .dimensionInvalid
    else if buff.src_height = 0 then .error .dimensionInvalid
    else if raw.length ≠ buff.src_width * buff.src_height then
      .error .invalidBufferSize
    else if buff.dst_width = 0 then .error .dimensionInvalid
    else if buff.dst_height = 0 then .error .dimensionInvalid
    else
      let out := resizeNearest buff.src_width buff.src_height
        buff.dst_width buff.dst_height raw
      if buff.dst_width * buff.dst_height ≤ out.length then
        .ok ⟨buff.dst_width, buff.dst_height, out⟩
      else .error .fromRawFailed

/-- The `CameraBuffer` literal built by each loop iteration of `main`
(main.rs lines 165-171), exactly as the source assigns the fields:
`src_width: fmt.width`, `dst_height: fmt.height`,
`src_height: term_height.into()`, `dst_width: term_width.into()`. -/
def loopMetadata (fmtW fmtH termW termH : Nat)
    (decoded : Option (List Nat)) : CameraBuffer :=
  ⟨decoded, fmtW, termH, termW, fmtH⟩

/-- The outcome of one loop iteration's external collaborator calls
(`main`, main.rs lines 162-213), in the order the iteration makes them:

* `termSizeOk` — `terminal::size()` succeeds, returning
  (`termW`, `termH`);
* `streamOk` — `stream.next()` succeeds; `decoded` is the mozjpeg decode
  outcome for the returned frame bytes (consumed by `get_cam`);
* `pollOk` — `poll(0)` succeeds; `pollReady` — it reports an event;
* `readOk` — `read()` succeeds; `keyChar` — `some c` when the event is a
  key event with character `c`, `none` otherwise;
* `fileCreateOk` / `fileWriteOk` — `File::create` and the snapshot
  `write_image_buffer` succeed (taken only on the `'s'` key);
* `clearOk` — the `execute!` clear-and-home succeeds;
* `writeOk` — `write_image_buffer` to stdout succeeds;
* `flushOk` — `stdout.flush()` succeeds. -/
structure IterEnv where
  termSizeOk : Bool
  termW : Nat
  termH : Nat
  streamOk : Bool
  decoded : Option (List Nat)
  pollOk : Bool
  pollReady : Bool
  readOk : Bool
  keyChar : Option Char
  fileCreateOk : Bool
  fileWriteOk : Bool
  clearOk : Bool
  writeOk : Bool
  flushOk : Bool

/-- How one run of `main`'s loop body ends: the `break` on `'q'`, or one
early `return` per fallible call, named for the call that failed. -/
inductive MainExit where
  | quitBreak
  | errTermSize
  | errStream
  | errCam
  | errPoll
  | errRead
  | errFileCreate
  | errFileWrite
  | errClear
  | errWrite
  | errFlush
deriving DecidableEq, Repr

/-- The key-handling block (main.rs lines 181-202).  Returns the exit this
block takes, if any, and the raw-mode flag as the block leaves it. -/
def keyStep (e : IterEnv) (raw : Bool) : Option MainExit × Bool :=
  if e.pollReady = false then (none, raw)
  else if e.readOk = false then (some .errRead, raw)
  else
    match e.keyChar with
    | none => (none, raw)
    | some c =>
      if c = 'q' then (some .quitBreak, raw)
      else if c = 's' then
        if e.fileCreateOk = false then (some .errFileCreate, raw)
        else if e.fileWriteOk = false then (some .errFileWrite, raw)
        else (none, raw)
      else (none, raw)

/-- The terminal-output block (main.rs lines 204-212): clear and home the
cursor, write the frame, flush. -/
def outStep (e : IterEnv) (raw : Bool) : Option MainExit × Bool :=
  if e.clearOk = false then (some .errClear, raw)
  else if e.writeOk = false then (some .errWrite, raw)
  else if e.flushOk = false then (some .errFlush, raw)
  else (none, raw)

/-- One full loop iteration of `main` (main.rs lines 162-213).  `raw` is
the raw-mode flag on entry; the result pairs the iteration's exit (or
`none` to continue looping) with the raw-mode flag on exit.  Only the
`get_cam` error arm (lines 175-178) calls `terminal::disable_raw_mode()`
before returning; every other `?` propagation returns with the flag
untouched. -/
def iterStep (fmtW fmtH : Nat) (e : IterEnv) (raw : Bool) :
    Option MainExit × Bool :=
  if e.termSizeOk = false then (some .errTermSize, raw)
  else if e.streamOk = false then (some .errStream, raw)
  else
    match get_cam (loopMetadata fmtW fmtH e.termW e.termH e.decoded) with
    | .error _ => (some .errCam, false)
    | .ok _ =>
      if e.pollOk = false then (some .errPoll, raw)
      else
        match keyStep e raw with
        | (some k, r) => (some k, r)
        | (none, r) => outStep e r

/-- The loop of `main` (main.rs lines 162-213) driven by a finite script
of iteration environments, followed by the post-loop
`terminal::disable_raw_mode()` (line 215) on the `break` path.  Returns
`none` when the script runs out with the loop still going, otherwise the
exit and the raw-mode flag at the process-boundary return. -/
def runLoop (fmtW fmtH : Nat) :
    List IterEnv → Bool → Option (MainExit × Bool)
  | [], _ => none
  | e :: rest, raw =>
    match iterStep fmtW fmtH e raw with
    | (some k, r) =>
      if k = MainExit.quitBreak then some (k, false) else some (k, r)
    | (none, r) => runLoop fmtW fmtH rest r

/-- Function `main` from `terminal::enable_raw_mode()` (main.rs line 160) onward:
the loop starts with raw mode enabled. -/
def mainRun (fmtW fmtH : Nat) (envs : List IterEnv) :
    Option (MainExit × Bool) :=
  runLoop fmtW fmtH envs true

/-! ## Helper lemmas about the character ramp mapper -/

lemma char_idx_le (ramp : List Char) (p : Nat) (hp : p ≤ 255) :
    CharArr.char_idx ⟨ramp, p⟩ ≤ ramp.length - 1 := by
  unfold CharArr.char_idx
  calc p * (ramp.length - 1) / 255
      ≤ 255 * (ramp.length - 1) / 255 :=
        Nat.div_le_div_right (Nat.mul_le_mul_right _ hp)
    _ = ramp.length - 1 := Nat.mul_div_cancel_left _ (by norm_num)

lemma char_idx_lt (ramp : List Char) (p : Nat) (h1 : 1 ≤ ramp.length)
    (hp : p ≤ 255) : CharArr.char_idx ⟨ramp, p⟩ < ramp.length :=
  lt_of_le_of_lt (char_idx_le ramp p hp)
    (Nat.sub_lt (Nat.lt_of_lt_of_le Nat.zero_lt_one h1) Nat.zero_lt_one)

lemma get_char_mem_charset13 (p : Nat) :
    CharArr.get_char ⟨charset13, p⟩ ∈ charset13 := by
  unfold CharArr.get_char
  by_cases h : CharArr.char_idx ⟨charset13, p⟩ < charset13.length
  · rw [List.getD_eq_getElem?_getD, List.getElem?_eq_getElem h]
    exact List.getElem_mem h
  · rw [List.getD_eq_getElem?_getD,
      List.getElem?_eq_none (Nat.le_of_not_lt h)]
    decide

/-! ## Helper lemmas about the renderer -/

lemma renderLine_length (img : GrayImage) (y : Nat) :
    (renderLine img y).length = img.width + 2 := by
  simp [renderLine]

lemma renderLine_getElem? (img : GrayImage) (y c : Nat)
    (hc : c < img.width) :
    (renderLine img y)[c]? =
      some (CharArr.get_char
        ⟨charset13, img.get_pixel (img.width - 1 - c) y⟩) := by
  have hw : 0 < img.width := Nat.lt_of_le_of_lt (Nat.zero_le c) hc
  unfold renderLine
  rw [List.getElem?_append_left (by simpa using hc)]
  rw [List.getElem?_map]
  rw [List.getElem?_reverse (by simpa using hc)]
  rw [List.length_range,
    List.getElem?_range
      (Nat.lt_of_le_of_lt (Nat.sub_le _ _) (Nat.sub_lt hw Nat.one_pos))]
  rfl

lemma renderLine_take (img : GrayImage) (y : Nat) :
    (renderLine img y).take img.width =
      (List.range img.width).reverse.map
        (fun x => CharArr.get_char ⟨charset13, img.get_pixel x y⟩) := by
  unfold renderLine
  exact List.take_left' (by simp)

lemma renderLine_drop (img : GrayImage) (y : Nat) :
    (renderLine img y).drop img.width = ['\r', '\n'] := by
  unfold renderLine
  exact List.drop_left' (by simp)

/-! ## Helper lemmas about the resampler -/

lemma flatGrid_succ (h w : Nat) (f : Nat → Nat → Nat) :
    flatGrid (h + 1) w f = flatGrid h w f ++ (List.range w).map (f h) := by
  unfold flatGrid
  rw [List.range_succ, List.flatMap_append, List.flatMap_singleton]

lemma flatGrid_length (h w : Nat) (f : Nat → Nat → Nat) :
    (flatGrid h w f).length = h * w := by
  induction h with
  | zero => simp [flatGrid]
  | succ n ih =>
    rw [flatGrid_succ, List.length_append, ih, List.length_map,
      List.length_range]
    ring

lemma resizeNearest_length (srcW srcH dstW dstH : Nat) (data : List Nat) :
    (resizeNearest srcW srcH dstW dstH data).length = dstH * dstW :=
  flatGrid_length dstH dstW _

lemma flatGrid_congr {h w : Nat} {f g : Nat → Nat → Nat}
    (H : ∀ y, y < h → ∀ x, x < w → f y x = g y x) :
    flatGrid h w f = flatGrid h w g := by
  unfold flatGrid
  rw [List.flatMap_def, List.flatMap_def]
  congr 1
  apply List.map_congr_left
  intro y hy
  apply List.map_congr_left
  intro x hx
  exact H y (List.mem_range.1 hy) x (List.mem_range.1 hx)

lemma map_range_getD_drop (w n : Nat) (data : List Nat)
    (hlen : data.length = w * (n + 1)) :
    (List.range w).map (fun x => data.getD (n * w + x) 0)
      = data.drop (w * n) := by
  apply List.ext_getElem?
  intro i
  rw [List.getElem?_map, List.getElem?_drop]
  by_cases hi : i < w
  · have hidx : w * n + i < data.length := by
      rw [hlen]
      have : w * (n + 1) = w * n + w := by ring
      omega
    rw [List.getElem?_range hi, List.getElem?_eq_getElem hidx]
    have harith : n * w + i = w * n + i := by ring
    simp only [Option.map_some']
    rw [List.getD_eq_getElem?_getD, harith, List.getElem?_eq_getElem hidx]
    rfl
  · have h1 : (List.range w)[i]? = none :=
      List.getElem?_eq_none (by simpa using Nat.le_of_not_lt hi)
    have h2 : data[w * n + i]? = none := by
      refine List.getElem?_eq_none ?_
      rw [hlen]
      have hw : w * (n + 1) = w * n + w := by ring
      omega
    rw [h1, h2]
    rfl

lemma flatGrid_id (w h : Nat) (data : List Nat)
    (hlen : data.length = w * h) :
    flatGrid h w (fun y x => data.getD (y * w + x) 0) = data := by
  induction h generalizing data with
  | zero =>
    have hd : data = [] :=
      List.eq_nil_of_length_eq_zero (by simpa using hlen)
    subst hd
    rfl
  | succ n ih =>
    have htake : (data.take (w * n)).length = w * n := by
      rw [List.length_take, hlen]
      have : w * (n + 1) = w * n + w := by ring
      omega
    have hfront : flatGrid n w (fun y x => data.getD (y * w + x) 0)
        = data.take (w * n) := by
      rw [← ih (data.take (w * n)) htake]
      apply flatGrid_congr
      intro y hy x hx
      have hidx : y * w + x < w * n := by
        have h1 : y * w + x < y * w + w := Nat.add_lt_add_left hx _
        have h2 : y * w + w = (y + 1) * w := by ring
        have h3 : (y + 1) * w ≤ n * w :=
          Nat.mul_le_mul_right w (Nat.succ_le_of_lt hy)
        have h4 : n * w = w * n := Nat.mul_comm n w
        omega
      rw [List.getD_eq_getElem?_getD, List.getD_eq_getElem?_getD,
        List.getElem?_take, if_pos hidx]
    rw [flatGrid_succ, hfront, map_range_getD_drop w n data hlen,
      List.take_append_drop]

/-- The nearest-neighbor source index of an output position with the same
source and target extent is the position itself: the center `y + 1/2` of
cell `y` maps to itself under the identity scale. -/
lemma nearest_center_same (H y : Nat) (hH : 0 < H) :
    (2 * y + 1) * H / (2 * H) = y := by
  have h1 : (2 * y + 1) * H = 2 * H * y + H := by ring
  rw [h1, Nat.mul_add_div (by omega)]
  rw [Nat.div_eq_of_lt (by omega)]
  omega

/-! ## Claim theorems: the character ramp mapper -/

/-- Claim C3: for every ramp of length `N ≥ 2` and every luminance byte
`p ∈ [0,255]`, `CharArr::get_char` computes the index
`⌊p·(N-1)/255⌋` by integer floor division, that index is in `[0, N-1]`,
the slice access succeeds (no panic path), and the returned character is
`ramp[⌊p·(N-1)/255⌋]`. -/
theorem claimC3_get_char_total (ramp : List Char) (p : Nat)
    (hN : 2 ≤ ramp.length) (hp : p ≤ 255) :
    CharArr.char_idx ⟨ramp, p⟩ < ramp.length ∧
    CharArr.get_char? ⟨ramp, p⟩ = some (CharArr.get_char ⟨ramp, p⟩) ∧
    CharArr.get_char ⟨ramp, p⟩ =
      ramp.getD (p * (ramp.length - 1) / 255) ' ' := by
  have hlt : CharArr.char_idx ⟨ramp, p⟩ < ramp.length :=
    char_idx_lt ramp p (le_trans (by norm_num) hN) hp
  refine ⟨hlt, ?_, rfl⟩
  unfold CharArr.get_char? CharArr.get_char
  rw [List.getElem?_eq_getElem hlt, List.getD_eq_getElem?_getD,
    List.getElem?_eq_getElem hlt]
  rfl

/-- Witness for C3 at the shipped 13-entry ramp and `p = 128`. -/
theorem claimC3_witness :
    CharArr.char_idx ⟨charset13, 128⟩ < charset13.length ∧
    CharArr.get_char? ⟨charset13, 128⟩ =
      some (CharArr.get_char ⟨charset13, 128⟩) ∧
    CharArr.get_char ⟨charset13, 128⟩ =
      charset13.getD (128 * (charset13.length - 1) / 255) ' ' :=
  claimC3_get_char_total charset13 128 (by decide) (by decide)

/-- Claim C8: for every ramp length `N ≥ 2`, the mapped index of
`CharArr::get_char` is monotone non-decreasing in the luminance byte, and
the endpoints map to the ends of the ramp: `p = 0` to index `0` and
`p = 255` to index `N - 1`. -/
theorem claimC8_index_monotone (ramp : List Char) (hN : 2 ≤ ramp.length)
    (p q : Nat) (hpq : p ≤ q) (hq : q ≤ 255) :
    CharArr.char_idx ⟨ramp, p⟩ ≤ CharArr.char_idx ⟨ramp, q⟩ ∧
    CharArr.char_idx ⟨ramp, 0⟩ = 0 ∧
    CharArr.char_idx ⟨ramp, 255⟩ = ramp.length - 1 := by
  refine ⟨?_, ?_, ?_⟩
  · exact Nat.div_le_div_right (Nat.mul_le_mul_right _ hpq)
  · simp [CharArr.char_idx]
  · exact Nat.mul_div_cancel_left _ (by norm_num)

/-- Witness for C8 at the shipped ramp with `p = 10 ≤ q = 200`. -/
theorem claimC8_witness :
    CharArr.char_idx ⟨charset13, 10⟩ ≤ CharArr.char_idx ⟨charset13, 200⟩ ∧
    CharArr.char_idx ⟨charset13, 0⟩ = 0 ∧
    CharArr.char_idx ⟨charset13, 255⟩ = charset13.length - 1 :=
  claimC8_index_monotone charset13 (by decide) 10 200 (by decide) (by decide)

/-! ## Claim theorems: the renderer -/

/-- Claim C4: rendering a `W × H` grid produces exactly `H` lines; each
line holds exactly `W` ramp characters followed by the two control
characters carriage-return then newline, and the emitted buffer is the
concatenation of those lines in order. -/
theorem claimC4_render_lines_shape (img : GrayImage) :
    (renderLines img).length = img.height ∧
    write_image_buffer img = (renderLines img).flatten ∧
    ∀ y, y < img.height →
      (renderLines img)[y]? = some (renderLine img y) ∧
      (renderLine img y).length = img.width + 2 ∧
      (renderLine img y).drop img.width = ['\r', '\n'] ∧
      ∀ ch ∈ (renderLine img y).take img.width, ch ∈ charset13 := by
  refine ⟨by simp [renderLines], rfl, fun y hy => ⟨?_, renderLine_length img y,
    renderLine_drop img y, fun ch hch => ?_⟩⟩
  · unfold renderLines
    rw [List.getElem?_map, List.getElem?_range (by simpa using hy)]
    rfl
  · rw [renderLine_take] at hch
    rcases List.mem_map.1 hch with ⟨x, _, hx⟩
    rw [← hx]
    exact get_char_mem_charset13 _

/-- Witness for C4 at the concrete `2 × 1` grid `[0, 255]`, line `0`. -/
theorem claimC4_witness :
    (renderLines ⟨2, 1, [0, 255]⟩).length = 1 ∧
    (renderLine ⟨2, 1, [0, 255]⟩ 0).length = 2 + 2 ∧
    (renderLine ⟨2, 1, [0, 255]⟩ 0).drop 2 = ['\r', '\n'] :=
  ⟨(claimC4_render_lines_shape ⟨2, 1, [0, 255]⟩).1,
    ((claimC4_render_lines_shape ⟨2, 1, [0, 255]⟩).2.2 0 (by decide)).2.1,
    ((claimC4_render_lines_shape ⟨2, 1, [0, 255]⟩).2.2 0 (by decide)).2.2.1⟩

/-- Claim C5: in the rendered line for row `y` of a `W × H` grid, the
character at output column `c ∈ [0, W-1]` is the ramp character of the
source sample at column `W - 1 - c` of row `y` — a horizontal mirror. -/
theorem claimC5_render_mirror (img : GrayImage) (y c : Nat)
    (hy : y < img.height) (hc : c < img.width) :
    (renderLine img y)[c]? =
      some (CharArr.get_char
        ⟨charset13, img.get_pixel (img.width - 1 - c) y⟩) :=
  renderLine_getElem? img y c hc

/-- Witness for C5 at the `2 × 1` grid `[0, 255]`, row `0`, column `0`. -/
theorem claimC5_witness :
    (renderLine ⟨2, 1, [0, 255]⟩ 0)[0]? =
      some (CharArr.get_char
        ⟨charset13, GrayImage.get_pixel ⟨2, 1, [0, 255]⟩ (2 - 1 - 0) 0⟩) :=
  claimC5_render_mirror ⟨2, 1, [0, 255]⟩ 0 0 (by decide) (by decide)

/-- Claim C9: the `2 × 1` grid with samples `[0, 255]`, resampled to its
own dimensions (identity) and rendered with the shipped 13-entry ramp,
yields a single line whose first character is the brightest (last) ramp
glyph `'?'` and whose second is the blank (first) glyph, followed by
carriage-return then newline. -/
theorem claimC9_end_to_end_2x1 :
    resizeNearest 2 1 2 1 [0, 255] = [0, 255] ∧
    write_image_buffer ⟨2, 1, [0, 255]⟩ = ['?', ' ', '\r', '\n'] ∧
    charset13.getD (charset13.length - 1) ' ' = '?' ∧
    charset13.getD 0 ' ' = ' ' := by
  refine ⟨by decide, ?_, by decide, by decide⟩
  decide

/-- Claim C10: with the shipped 13-entry ramp, luminance `255` maps to
index `12`, the final ramp entry `'?'`; in the rendered output, any
full-brightness source sample produces a `'?'` at its mirrored output
column — the 13th "extra" entry is reachable and displayed (the in-code
comment claiming it will not be displayed is wrong; the spec's contract
`p = 255 ↦ index N-1` is what the code does). -/
theorem claimC10_extra_char_displayed (img : GrayImage) (y c : Nat)
    (hy : y < img.height) (hc : c < img.width)
    (hpix : img.get_pixel (img.width - 1 - c) y = 255) :
    CharArr.char_idx ⟨charset13, 255⟩ = 12 ∧
    charset13.length = 13 ∧
    CharArr.get_char ⟨charset13, 255⟩ = '?' ∧
    (renderLine img y)[c]? = some '?' := by
  refine ⟨by decide, by decide, by decide, ?_⟩
  rw [renderLine_getElem? img y c hc, hpix]
  rfl

/-- Witness for C10 at the `1 × 1` grid `[255]`. -/
theorem claimC10_witness :
    CharArr.char_idx ⟨charset13, 255⟩ = 12 ∧
    charset13.length = 13 ∧
    CharArr.get_char ⟨charset13, 255⟩ = '?' ∧
    (renderLine ⟨1, 1, [255]⟩ 0)[0]? = some '?' :=
  claimC10_extra_char_displayed ⟨1, 1, [255]⟩ 0 0 (by decide) (by decide)
    (by decide)

/-! ## Claim theorems: the decode-and-resample stage -/

/-- Claim C6: with a well-formed decoded source buffer, a zero width or
height among the source or target dimensions makes `get_cam` return the
dimension error (the `NonZeroU32` rejection), and with all four
dimensions strictly positive that error branch is not taken — the stage
succeeds and returns the resampled grid. -/
theorem claimC6_zero_dims_error (srcW srcH dstW dstH : Nat)
    (raw : List Nat) (hlen : raw.length = srcW * srcH) :
    ((srcW = 0 ∨ srcH = 0 ∨ dstW = 0 ∨ dstH = 0) →
      get_cam ⟨some raw, srcW, srcH, dstW, dstH⟩ =
        .error CamError.dimensionInvalid) ∧
    (0 < srcW → 0 < srcH → 0 < dstW → 0 < dstH →
      get_cam ⟨some raw, srcW, srcH, dstW, dstH⟩ =
        .ok ⟨dstW, dstH, resizeNearest srcW srcH dstW dstH raw⟩) := by
  constructor
  · intro h
    unfold get_cam
    rcases h with h | h | h | h <;> split_ifs <;> simp_all
  · intro h1 h2 h3 h4
    have hout : (resizeNearest srcW srcH dstW dstH raw).length
        = dstH * dstW := resizeNearest_length srcW srcH dstW dstH raw
    simp only [get_cam]
    rw [if_neg (Nat.pos_iff_ne_zero.mp h1), if_neg (Nat.pos_iff_ne_zero.mp h2),
      if_neg (not_not_intro hlen), if_neg (Nat.pos_iff_ne_zero.mp h3),
      if_neg (Nat.pos_iff_ne_zero.mp h4),
      if_pos (by rw [hout]; exact Nat.le_of_eq (Nat.mul_comm dstW dstH))]

/-- Witness for C6: the zero branch at target width `0` and the positive
branch at all-ones dimensions. -/
theorem claimC6_witness :
    get_cam ⟨some [7, 7, 7, 7, 7, 7], 2, 3, 0, 5⟩ =
      .error CamError.dimensionInvalid ∧
    get_cam ⟨some [9], 1, 1, 1, 1⟩ =
      .ok ⟨1, 1, resizeNearest 1 1 1 1 [9]⟩ :=
  ⟨(claimC6_zero_dims_error 2 3 0 5 [7, 7, 7, 7, 7, 7] (by decide)).1
      (Or.inr (Or.inr (Or.inl rfl))),
    (claimC6_zero_dims_error 1 1 1 1 [9] (by decide)).2
      Nat.one_pos Nat.one_pos Nat.one_pos Nat.one_pos⟩

/-- Claim C7: nearest-neighbor resampling a strictly positive `W × H`
grid to its own dimensions is the identity. -/
theorem claimC7_resample_identity (W H : Nat) (data : List Nat)
    (hW : 0 < W) (hH : 0 < H) (hlen : data.length = W * H) :
    resizeNearest W H W H data = data := by
  unfold resizeNearest
  have hcongr : flatGrid H W (fun y x =>
      data.getD
        (min ((2 * y + 1) * H / (2 * H)) (H - 1) * W
          + min ((2 * x + 1) * W / (2 * W)) (W - 1)) 0)
      = flatGrid H W (fun y x => data.getD (y * W + x) 0) := by
    apply flatGrid_congr
    intro y hy x hx
    rw [nearest_center_same H y hH, nearest_center_same W x hW,
      Nat.min_eq_left (by omega), Nat.min_eq_left (by omega)]
  rw [hcongr]
  exact flatGrid_id W H data hlen

/-- Witness for C7 at the `2 × 2` grid `[1, 2, 3, 4]`. -/
theorem claimC7_witness :
    resizeNearest 2 2 2 2 [1, 2, 3, 4] = [1, 2, 3, 4] :=
  claimC7_resample_identity 2 2 [1, 2, 3, 4] (by decide) (by decide)
    (by decide)

/-! ## Claim theorems: the capture loop -/

/-- Claim C1 is violated by the code (code bug): `main` builds the
`CameraBuffer` with `dst_height: fmt.height` and
`src_height: term_height.into()` (main.rs lines 165-171) — the source and
target heights are swapped.  The resample target height handed to
`get_cam` is therefore the camera's native height, not the terminal's row
count, and whenever the native height differs from the terminal row
count the decoded buffer (of length `fmt.width * fmt.height`) cannot
match the declared `fmt.width * term_height` source size, so the stage
fails instead of producing a terminal-sized grid. -/
theorem claimC1_resample_target_height_bug (fmtW fmtH termW termH : Nat)
    (raw : List Nat) (hraw : raw.length = fmtW * fmtH) (hW : 0 < fmtW)
    (hH : 0 < termH) (hne : fmtH ≠ termH) :
    (loopMetadata fmtW fmtH termW termH (some raw)).dst_height = fmtH ∧
    (loopMetadata fmtW fmtH termW termH (some raw)).src_height = termH ∧
    get_cam (loopMetadata fmtW fmtH termW termH (some raw)) =
      .error CamError.invalidBufferSize := by
  refine ⟨rfl, rfl, ?_⟩
  simp only [get_cam, loopMetadata]
  rw [if_neg (Nat.pos_iff_ne_zero.mp hW), if_neg (Nat.pos_iff_ne_zero.mp hH),
    if_pos ?_]
  rw [hraw]
  intro heq
  exact hne (Nat.eq_of_mul_eq_mul_left hW heq)

/-- Witness for C1 at the failing input: a 640×480 camera frame with an
80×24 terminal. -/
theorem claimC1_witness :
    (loopMetadata 640 480 80 24
      (some (List.replicate (640 * 480) 0))).dst_height = 480 ∧
    (loopMetadata 640 480 80 24
      (some (List.replicate (640 * 480) 0))).src_height = 24 ∧
    get_cam (loopMetadata 640 480 80 24
      (some (List.replicate (640 * 480) 0))) =
      .error CamError.invalidBufferSize :=
  claimC1_resample_target_height_bug 640 480 80 24
    (List.replicate (640 * 480) 0) (List.length_replicate _ _) (by norm_num)
    (by norm_num) (by norm_num)

lemma keyStep_spec (e : IterEnv) (raw : Bool) :
    (keyStep e raw).2 = raw ∧ (keyStep e raw).1 ≠ some MainExit.errCam := by
  unfold keyStep
  cases hk : e.keyChar with
  | none => split_ifs <;> simp
  | some c =>
    by_cases hq : c = 'q' <;> by_cases hs : c = 's' <;>
      split_ifs <;> simp_all

lemma outStep_spec (e : IterEnv) (raw : Bool) :
    (outStep e raw).2 = raw ∧ (outStep e raw).1 ≠ some MainExit.errCam := by
  unfold outStep
  split_ifs <;> simp

/-- At the start of an iteration raw mode is on; the iteration leaves it
off exactly when it exits through the `get_cam` error arm — the only
place the loop body calls `terminal::disable_raw_mode()`. -/
lemma iterStep_spec (fmtW fmtH : Nat) (e : IterEnv) :
    ((iterStep fmtW fmtH e true).1 = some MainExit.errCam ∧
      (iterStep fmtW fmtH e true).2 = false) ∨
    ((iterStep fmtW fmtH e true).1 ≠ some MainExit.errCam ∧
      (iterStep fmtW fmtH e true).2 = true) := by
  unfold iterStep
  cases hg : get_cam (loopMetadata fmtW fmtH e.termW e.termH e.decoded) with
  | error err => split_ifs <;> simp
  | ok frame =>
    rcases hks : keyStep e true with ⟨o, r⟩
    simp only [hks]
    have hspec := keyStep_spec e true
    rw [hks] at hspec
    rcases hos : outStep e r with ⟨o', r'⟩
    have hspec' := outStep_spec e r
    rw [hos] at hspec'
    cases o <;> split_ifs <;> simp_all

/-- Claim C2, amended: raw mode is disabled before return on the normal
quit path and on the decode/resample (`get_cam`) error path, and on no
other path: every other propagated error — terminal size query, stream
read, poll, event read, snapshot file create or write, terminal clear,
write, or flush — returns with raw mode still enabled. -/
theorem claimC2_raw_mode_amended (fmtW fmtH : Nat) (envs : List IterEnv)
    (k : MainExit) (r : Bool)
    (h : mainRun fmtW fmtH envs = some (k, r)) :
    r = false ↔ (k = MainExit.quitBreak ∨ k = MainExit.errCam) := by
  unfold mainRun at h
  induction envs with
  | nil => simp [runLoop] at h
  | cons e rest ih =>
    rw [runLoop] at h
    rcases hs : iterStep fmtW fmtH e true with ⟨o, rr⟩
    rw [hs] at h
    rcases iterStep_spec fmtW fmtH e with ⟨hfst, hsnd⟩ | ⟨hfst, hsnd⟩ <;>
      rw [hs] at hfst hsnd <;> simp only at hfst hsnd
    · -- the get_cam error arm: raw mode disabled
      subst hfst
      subst hsnd
      simp at h
      obtain ⟨hk, hr⟩ := h
      subst hk
      subst hr
      simp
    · cases o with
      | none =>
        subst hsnd
        exact ih h
      | some k' =>
        subst hsnd
        have hkc : k' ≠ MainExit.errCam := fun hc => hfst (by rw [hc])
        by_cases hq : k' = MainExit.quitBreak
        · subst hq
          simp at h
          obtain ⟨hk, hr⟩ := h
          subst hk
          subst hr
          simp
        · simp [hq] at h
          obtain ⟨hk, hr⟩ := h
          subst hk
          subst hr
          simp [hq, hkc]

/-- Counterexample to claim C2 as stated: a run whose first iteration's
`stream.next()` fails returns through the `?` at main.rs line 164 with raw
mode still enabled (`true` in the second component) — so not every error
exit path disables raw mode. -/
theorem claimC2_counterexample :
    mainRun 640 480
      [⟨true, 80, 24, false, none, true, false, true, none,
        true, true, true, true, true⟩] =
      some (MainExit.errStream, true) := rfl

/-- Witness for the amended C2 at a concrete quit run: one iteration that
decodes a 1×1 frame for a 1×1 terminal and receives the `'q'` key; the
run exits with raw mode disabled. -/
theorem claimC2_witness :
    mainRun 1 1
      [⟨true, 1, 1, true, some [0], true, true, true, some 'q',
        true, true, true, true, true⟩] =
      some (MainExit.quitBreak, false) ∧
    (false = false ↔ (MainExit.quitBreak = MainExit.quitBreak ∨
      MainExit.quitBreak = MainExit.errCam)) :=
  ⟨by decide,
    claimC2_raw_mode_amended 1 1
      [⟨true, 1, 1, true, some [0], true, true, true, some 'q',
        true, true, true, true, true⟩]
      MainExit.quitBreak false (by decide)⟩



